import Mathlib

/-!
# PokerSim hand-history pipeline: a shallow embedding

This file embeds the ETL-plus-analytics pipeline of `process_poker_data.py`:
the hand-history file parser (`parse_poker_file`), the ingestion loop that
loads the three sqlite tables (`hands`, `players`, `actions`), the per-player
metrics query (VPIP / aggression / showdown counts) and the derived feature
columns, and it proves the behavioural properties stated for the program.

Conventions of the embedding:
* Python strings are Lean `String`s; the handful of string operations the
  script uses (`strip`, `split`, `startswith`, sqlite `LIKE`) are implemented
  structurally over `List Char` so every definition evaluates in the kernel.
* Python floats are modelled as `ℚ`; the script only ever parses decimal
  literals from the input files and compares/divides them, for which `ℚ`
  is exact.  A numeric field that does not parse as a signed decimal literal
  is a structural parse failure, as in the script (where `float` raises).
* A raised-and-uncaught Python exception is `Except.error`; the script has no
  `try`/`except`, so any error aborts the whole run before the final
  `conn.commit()`, leaving only the already-committed table clearing visible.
* sqlite's `LIKE` is case-insensitive on ASCII; the embedding lowercases
  both sides before the infix match.
-/

/-! ## String utilities (Python `str` methods and sqlite `LIKE`) -/

/-- Drop matching characters from both ends of a character list
(the behaviour of Python's `str.strip(chars)`). -/
def dropEnds (p : Char → Bool) (l : List Char) : List Char :=
  ((l.dropWhile p).reverse.dropWhile p).reverse

/-- Python `str.strip()` (whitespace from both ends). -/
def stripWS (s : String) : String :=
  String.mk (dropEnds Char.isWhitespace s.toList)

/-- Python `str.strip(chars)` for an explicit character set. -/
def stripChars (cs : List Char) (s : String) : String :=
  String.mk (dropEnds (fun c => cs.contains c) s.toList)

/-- The single-quote character, written by code so the source file carries no
stray quote characters. -/
def quoteChar : Char := Char.ofNat 39

/-- Python `value.strip("[]")`. -/
def stripBrackets (s : String) : String :=
  stripChars [Char.ofNat 91, Char.ofNat 93] s

/-- Python `player.strip("'")` as used when inserting player identifiers. -/
def stripQuotes (s : String) : String :=
  stripChars [quoteChar] s

/-- Split a character list on the two-character separator `", "` exactly as
Python's `str.split(", ")` does (greedy, left to right; an empty input gives
one empty field). -/
def splitCS : List Char → List (List Char)
  | [] => [[]]
  | ',' :: ' ' :: rest => [] :: splitCS rest
  | c :: rest =>
    match splitCS rest with
    | [] => [[c]]
    | f :: fs => (c :: f) :: fs

/-- Python `line.split("=", 1)`: split at the first `=`, or fail when the
line has none (the script's tuple unpacking then raises `ValueError`). -/
def splitEqChars : List Char → Option (List Char × List Char)
  | [] => none
  | c :: rest =>
    if c = '=' then some ([], rest)
    else (splitEqChars rest).map (fun pr => (c :: pr.1, pr.2))

/-- `line.split("=", 1)` on strings. -/
def splitOnceEq (s : String) : Option (String × String) :=
  (splitEqChars s.toList).map (fun pr => (String.mk pr.1, String.mk pr.2))

/-- Does `pat` occur at the head of the list? -/
def leadMatch : List Char → List Char → Bool
  | [], _ => true
  | _ :: _, [] => false
  | a :: as, b :: bs => a = b && leadMatch as bs

/-- Does `pat` occur anywhere in the list? -/
def containsSeq (pat : List Char) : List Char → Bool
  | [] => pat.isEmpty
  | c :: rest => leadMatch pat (c :: rest) || containsSeq pat rest

/-- sqlite `column LIKE '%pat%'`: an infix match, case-insensitive on ASCII. -/
def likeHas (a : String) (pat : String) : Bool :=
  containsSeq (pat.toList.map Char.toLower) (a.toList.map Char.toLower)

/-- Numeric value of a digit string. -/
def digitsVal (cs : List Char) : Nat :=
  cs.foldl (fun n c => 10 * n + (c.toNat - 48)) 0

/-- Python `float` restricted to the signed decimal literals that actually
occur in hand-history files: optional sign, digits, optional fraction.
Anything else is a parse failure (Python raises `ValueError`). -/
def parseDecimal (s : String) : Option ℚ :=
  let cs := dropEnds Char.isWhitespace s.toList
  let sc : Bool × List Char :=
    match cs with
    | '-' :: rest => (true, rest)
    | '+' :: rest => (false, rest)
    | _ => (false, cs)
  let ip := sc.2.takeWhile Char.isDigit
  let rest := sc.2.dropWhile Char.isDigit
  match rest with
  | [] =>
    if ip.isEmpty then none
    else some (if sc.1 then -(digitsVal ip : ℚ) else (digitsVal ip : ℚ))
  | '.' :: fr =>
    if fr.all Char.isDigit && !(ip.isEmpty && fr.isEmpty) then
      let v : ℚ := mkRat (digitsVal (ip ++ fr) : Int) (10 ^ fr.length)
      some (if sc.1 then -v else v)
    else none
  | _ => none

/-- Python `int` on a string: optional sign and digits only. -/
def parsePyInt (s : String) : Option Int :=
  let cs := dropEnds Char.isWhitespace s.toList
  let sc : Bool × List Char :=
    match cs with
    | '-' :: rest => (true, rest)
    | '+' :: rest => (false, rest)
    | _ => (false, cs)
  if sc.2.isEmpty || !sc.2.all Char.isDigit then none
  else some (if sc.1 then -(digitsVal sc.2 : Int) else (digitsVal sc.2 : Int))

/-! ## The raw parsed record (`current_hand` dictionary) -/

/-- One raw hand record as built by `parse_poker_file`: the recognised keys of
the `current_hand` dictionary, each possibly absent.  Unrecognised keys are
never stored by the script, so they do not appear here. -/
structure RawHandRecord where
  variant : Option String
  venue : Option String
  table : Option String
  day : Option String
  month : Option String
  year : Option String
  hand : Option String
  players : Option (List String)
  starting_stacks : Option (List ℚ)
  winnings : Option (List ℚ)
  actions : Option (List String)
deriving DecidableEq

/-- The freshly reset `current_hand = {}`. -/
def emptyRecord : RawHandRecord :=
  ⟨none, none, none, none, none, none, none, none, none, none, none⟩

/-- Python's dict truthiness test `if current_hand:` — the record is empty
iff no recognised key was ever stored. -/
def RawHandRecord.isEmptyRec (r : RawHandRecord) : Bool :=
  r.variant.isNone && r.venue.isNone && r.table.isNone && r.day.isNone &&
  r.month.isNone && r.year.isNone && r.hand.isNone && r.players.isNone &&
  r.starting_stacks.isNone && r.winnings.isNone && r.actions.isNone

/-- `value.strip("[]").split(", ")` producing a list of strings. -/
def parseStrList (v : String) : List String :=
  (splitCS (stripBrackets v).toList).map String.mk

/-- `list(map(float, value.strip("[]").split(", ")))`; `none` models the
`ValueError` that aborts parsing of the file. -/
def parseNumList (v : String) : Option (List ℚ) :=
  (parseStrList v).mapM parseDecimal

/-- Store one `key = value` line into the accumulating record, exactly as the
recognised-key chain of `parse_poker_file` does; unrecognised keys are
ignored.  `none` models a `ValueError` from `float`. -/
def applyField (r : RawHandRecord) (key value : String) : Option RawHandRecord :=
  if key = "variant" then some { r with variant := some value }
  else if key = "venue" then some { r with venue := some value }
  else if key = "table" then some { r with table := some value }
  else if key = "day" then some { r with day := some value }
  else if key = "month" then some { r with month := some value }
  else if key = "year" then some { r with year := some value }
  else if key = "hand" then some { r with hand := some value }
  else if key = "players" then some { r with players := some (parseStrList value) }
  else if key = "starting_stacks" then
    (parseNumList value).map (fun l => { r with starting_stacks := some l })
  else if key = "winnings" then
    (parseNumList value).map (fun l => { r with winnings := some l })
  else if key = "actions" then some { r with actions := some (parseStrList value) }
  else some r

/-- Emit the accumulating record if it is non-empty (`if current_hand:`). -/
def flushRecord (acc : List RawHandRecord) (cur : RawHandRecord) : List RawHandRecord :=
  if cur.isEmptyRec then acc else acc ++ [cur]

/-- The line loop of `parse_poker_file` over the (already split) lines of one
file, carrying the emitted records and the accumulating record. -/
def parseLines : List String → List RawHandRecord → RawHandRecord →
    Except String (List RawHandRecord)
  | [], acc, cur => Except.ok (flushRecord acc cur)
  | line :: rest, acc, cur =>
    let l := stripWS line
    if l = "" then parseLines rest acc cur
    else if l.toList.head? = some '[' then parseLines rest (flushRecord acc cur) emptyRecord
    else
      match splitOnceEq l with
      | none => Except.error ("ValueError: no separator in line: " ++ l)
      | some kv =>
        match applyField cur (stripWS kv.1) (stripWS kv.2) with
        | none => Except.error ("ValueError: bad number in line: " ++ l)
        | some cur2 => parseLines rest acc cur2

/-- `parse_poker_file`, taking the file's lines. -/
def parsePokerFile (lines : List String) : Except String (List RawHandRecord) :=
  parseLines lines [] emptyRecord


/-! ## The relational store and the ingestion loop -/

/-- A row of the `hands` table.  `hand_id` is the `INTEGER PRIMARY KEY`; the
remaining columns are stored as the parser left them (strings). -/
structure HandRow where
  hand_id : Int
  variant : String
  venue : String
  table_name : String
  day : String
  month : String
  year : String
deriving DecidableEq

/-- A row of the `players` table. -/
structure PlayerRow where
  hand_id : Int
  player_id : String
  seat : Nat
  starting_stack : ℚ
  winnings : ℚ
deriving DecidableEq

/-- A row of the `actions` table. -/
structure ActionRow where
  hand_id : Int
  action : String
deriving DecidableEq

/-- The three tables, as insertion-ordered row lists. -/
structure Store where
  hands : List HandRow
  players : List PlayerRow
  actions : List ActionRow
deriving DecidableEq

/-- The store right after the committed `DELETE FROM` script. -/
def emptyStore : Store := ⟨[], [], []⟩

/-- `INSERT OR IGNORE INTO hands`: `hand_id` is the primary key, so a
duplicate identifier is ignored (first write wins). -/
def insertHand (s : Store) (h : HandRow) : Store :=
  if s.hands.any (fun x => x.hand_id == h.hand_id) then s
  else { s with hands := s.hands ++ [h] }

/-- `hand.get("winnings", [0] * len(hand["players"]))` once `players` is
known to be present. -/
def winningsListOf (r : RawHandRecord) (ps : List String) : List ℚ :=
  match r.winnings with
  | some w => w
  | none => List.replicate ps.length 0

/-- The `for i, player in enumerate(hand["players"])` loop.  Each iteration
indexes `starting_stacks[i]` (a `KeyError` if the field is absent, an
`IndexError` if it is too short) and `winnings_list[i]`, then appends one
`players` row with the quote-stripped identifier and seat `i + 1`.
`INSERT OR IGNORE` never ignores here because the table has no uniqueness
constraint. -/
def insertSeats (hid : Int) (stks : Option (List ℚ)) (wl : List ℚ) :
    Nat → List String → Store → Except String Store
  | _, [], s => Except.ok s
  | i, name :: rest, s =>
    match stks with
    | none => Except.error "KeyError: starting_stacks"
    | some st =>
      match st[i]? with
      | none => Except.error "IndexError: list index out of range"
      | some stack =>
        match wl[i]? with
        | none => Except.error "IndexError: list index out of range"
        | some w =>
          insertSeats hid stks wl (i + 1) rest
            { s with players := s.players ++ [⟨hid, stripQuotes name, i + 1, stack, w⟩] }

/-- The body of the ingestion loop for one parsed record (`hands` insert,
`players` loop, `actions` inserts), with every uncaught Python exception as
an `Except.error`.  The scalar columns are read eagerly (the tuple at the
`hands` insert), the hand identifier must convert to an integer, and the
stored action tokens are taken verbatim from the record. -/
def ingestRecord (s : Store) (r : RawHandRecord) : Except String Store :=
  match r.hand with
  | none => Except.error "KeyError: hand"
  | some handStr =>
  match r.variant with
  | none => Except.error "KeyError: variant"
  | some variant =>
  match r.venue with
  | none => Except.error "KeyError: venue"
  | some venue =>
  match r.table with
  | none => Except.error "KeyError: table"
  | some tname =>
  match r.day with
  | none => Except.error "KeyError: day"
  | some day =>
  match r.month with
  | none => Except.error "KeyError: month"
  | some month =>
  match r.year with
  | none => Except.error "KeyError: year"
  | some year =>
  match parsePyInt handStr with
  | none => Except.error "ValueError: invalid hand id"
  | some hid =>
  match r.players with
  | none => Except.error "KeyError: players"
  | some ps =>
  match insertSeats hid r.starting_stacks (winningsListOf r ps) 0 ps
      (insertHand s ⟨hid, variant, venue, tname, day, month, year⟩) with
  | Except.error e => Except.error e
  | Except.ok s2 =>
  match r.actions with
  | none => Except.error "KeyError: actions"
  | some acts =>
    Except.ok { s2 with actions := s2.actions ++ acts.map (fun a => (⟨hid, a⟩ : ActionRow)) }

/-- The ingestion loop over the records of one file; the first uncaught
exception aborts everything that follows. -/
def ingestRecords : Store → List RawHandRecord → Except String Store
  | s, [] => Except.ok s
  | s, r :: rs =>
    match ingestRecord s r with
    | Except.error e => Except.error e
    | Except.ok s2 => ingestRecords s2 rs

/-- `parse_poker_file` followed by the ingestion loop for one file. -/
def processFile (s : Store) (lines : List String) : Except String Store :=
  match parsePokerFile lines with
  | Except.error e => Except.error e
  | Except.ok recs => ingestRecords s recs

/-- The `for file in phhs_files` loop. -/
def processFiles : Store → List (List String) → Except String Store
  | s, [] => Except.ok s
  | s, f :: fs =>
    match processFile s f with
    | Except.error e => Except.error e
    | Except.ok s2 => processFiles s2 fs

/-- The committed `DELETE FROM hands; DELETE FROM players; DELETE FROM
actions;` script. -/
def clearStore (s : Store) : Store :=
  { s with hands := [], players := [], actions := [] }

/-- One full load over a prior store state, with commit semantics: the table
clearing is committed before ingestion begins, and the single
`conn.commit()` after the loop only runs when no exception was raised, so a
failed run leaves exactly the cleared store on disk. -/
def runPipeline (s0 : Store) (files : List (List String)) : Store :=
  match processFiles (clearStore s0) files with
  | Except.ok s => s
  | Except.error _ => clearStore s0

/-! ## The metrics query

`players p LEFT JOIN actions a ON p.hand_id = a.hand_id` followed by
`WHERE a.action IS NOT NULL` is an inner join on the hand identifier alone:
the join carries no condition on which player performed the action.  Stored
action tokens are never NULL, so the WHERE clause exactly discards the
unmatched left-join rows.  The query groups by `p.player_id`. -/

/-- The (inner-)join rows of one player's group: every pair of a seat row of
this player and an action row of the same hand. -/
def joinRows (pid : String) (s : Store) : List (PlayerRow × ActionRow) :=
  (s.players.filter (fun p => p.player_id == pid)).flatMap
    (fun p => (s.actions.filter (fun a => a.hand_id == p.hand_id)).map (fun a => (p, a)))

/-- `COUNT(DISTINCT hand_id)` over a list of join rows. -/
def distinctHands (l : List (PlayerRow × ActionRow)) : Nat :=
  ((l.map (fun pa => pa.1.hand_id)).toFinset).card

/-- The VPIP bucket of `LIKE` patterns. -/
def vpipMatch (a : String) : Bool :=
  likeHas a " cc" || likeHas a " limp" || likeHas a " cbr" || likeHas a " all-in"

/-- The PFR bucket of `LIKE` patterns. -/
def pfrMatch (a : String) : Bool :=
  likeHas a " all-in" || likeHas a " raise" || likeHas a " bet"

/-- The aggressive-action bucket of `LIKE` patterns. -/
def aggMatch (a : String) : Bool :=
  likeHas a " cbr" || likeHas a " bet" || likeHas a " raise" || likeHas a " all-in"

/-- The passive-action bucket of `LIKE` patterns. -/
def passMatch (a : String) : Bool :=
  likeHas a " f" || likeHas a " limp" || likeHas a " cc"

/-- `COUNT(DISTINCT p.hand_id)` — the player's `total_hands` column. -/
def totalHands (pid : String) (s : Store) : Nat :=
  distinctHands (joinRows pid s)

/-- The `vpip_hands` column: distinct hand identifiers over the join rows
whose action token matches a voluntary-money pattern. -/
def vpipHands (pid : String) (s : Store) : Nat :=
  distinctHands ((joinRows pid s).filter (fun pa => vpipMatch pa.2.action))

/-- The `pfr_hands` column. -/
def pfrHands (pid : String) (s : Store) : Nat :=
  distinctHands ((joinRows pid s).filter (fun pa => pfrMatch pa.2.action))

/-- The `aggressive_actions` column: a plain `COUNT` over matching join rows. -/
def aggressiveActions (pid : String) (s : Store) : Nat :=
  ((joinRows pid s).filter (fun pa => aggMatch pa.2.action)).length

/-- The `passive_actions` column. -/
def passiveActions (pid : String) (s : Store) : Nat :=
  ((joinRows pid s).filter (fun pa => passMatch pa.2.action)).length

/-- The numerator of `showdown_win_percent`: distinct hands among the join
rows whose seat row (the player's own) has positive winnings. -/
def showdownHands (pid : String) (s : Store) : Nat :=
  distinctHands ((joinRows pid s).filter (fun pa => decide (0 < pa.1.winnings)))

/-- The set of players the query returns: grouped player identifiers passing
`HAVING COUNT(DISTINCT p.hand_id) > 10`. -/
def resultPlayers (s : Store) : Finset String :=
  ((s.players.map (fun p => p.player_id)).toFinset).filter (fun pid => 10 < totalHands pid s)

/-- `df["vpip_percent"]`. -/
def vpipPercent (pid : String) (s : Store) : ℚ :=
  (vpipHands pid s : ℚ) / (totalHands pid s : ℚ) * 100

/-- `df["total_actions"]`. -/
def totalActions (pid : String) (s : Store) : Nat :=
  passiveActions pid s + aggressiveActions pid s

/-- `df["pfr_percent"]` (the aggression ratio column). -/
def pfrPercent (pid : String) (s : Store) : ℚ :=
  (passiveActions pid s : ℚ) / (totalActions pid s : ℚ) * 100

/-- The `showdown_win_percent` column. -/
def showdownWinPercent (pid : String) (s : Store) : ℚ :=
  (showdownHands pid s : ℚ) * 100 / (totalHands pid s : ℚ)

/-- The feature rows handed to the clustering step: one row per qualifying
player, minus the rows `dropna()` removes (`pfr_percent` is NaN exactly when
the player's classified-action count is zero; `showdown_win_percent` cannot
be NULL for a qualifying player since `total_hands > 10 > 0`). -/
def featureMatrix (s : Store) : List (String × ℚ × ℚ × ℚ) :=
  (((s.players.map (fun p => p.player_id)).dedup).filter
      (fun pid => decide (10 < totalHands pid s) && decide (totalActions pid s ≠ 0))).map
    (fun pid => (pid, vpipPercent pid s, pfrPercent pid s, showdownWinPercent pid s))

/-- `KMeans(n_clusters=4, random_state=42).fit_predict` on the standardized
feature matrix, followed by the label join.  With a fixed `random_state` the
whole clustering step is a deterministic function of the feature rows; it is
external library code, so the embedding abstracts it as an arbitrary pure
function of those rows. -/
def clusterAssignments (km : List (String × ℚ × ℚ × ℚ) → List Nat) (s : Store) : List Nat :=
  km (featureMatrix s)

/-! ## Spec-side per-player readings (for comparison with the query) -/

/-- The actor of an action token under the spec's reading that a token such
as `P1 cbr 10` is an action of player `P1`: its first space-separated word. -/
def tokenActor (t : String) : String :=
  String.mk (t.toList.takeWhile (fun c => c != ' '))

/-- Spec reading of `vpip_hands`: the distinct hands in which THIS player
(the token's actor) took a voluntary-money action. -/
def vpipHandsSpec (pid : String) (s : Store) : Nat :=
  distinctHands ((joinRows pid s).filter
    (fun pa => tokenActor pa.2.action == pid && vpipMatch pa.2.action))

/-- Spec reading of `aggressive_actions`: only this player's own aggressive
action tokens are counted. -/
def aggressiveActionsSpec (pid : String) (s : Store) : Nat :=
  ((joinRows pid s).filter
    (fun pa => tokenActor pa.2.action == pid && aggMatch pa.2.action)).length

/-- The hand identifiers this player is seated in. -/
def seatHands (pid : String) (s : Store) : Finset Int :=
  ((s.players.filter (fun p => p.player_id == pid)).map (fun p => p.hand_id)).toFinset

/-! ## Concrete fixtures used by the witnesses and counterexamples -/

/-- The single-quote character as a string, for writing quoted list elements
of the input format. -/
def qs : String := String.mk [quoteChar]

/-- A store with `n` hands, player `A` seated in every hand with positive
winnings, and one bet-or-raise action token per hand. -/
def mkStoreA (n : Nat) : Store :=
  { hands := (List.range n).map (fun i => ⟨(i : Int) + 1, "v", "w", "t", "1", "1", "2024"⟩)
  , players := (List.range n).map (fun i => ⟨(i : Int) + 1, "A", 1, 100, 1⟩)
  , actions := (List.range n).map (fun i => ⟨(i : Int) + 1, "A cbr 2"⟩) }


/-- Delete the `players` rows of one hand, leaving everything else. -/
def removeHandSeats (h : Int) (s : Store) : Store :=
  { s with players := s.players.filter (fun p => p.hand_id != h) }

/-- A store whose hand 2 has a `hands` row and a seat row but no action row. -/
def c9Store : Store :=
  { hands := [⟨1, "v", "w", "t", "1", "1", "2024"⟩, ⟨2, "v", "w", "t", "1", "1", "2024"⟩]
  , players := [⟨1, "A", 1, 100, 5⟩, ⟨2, "A", 1, 100, 5⟩]
  , actions := [⟨1, "A cbr 2"⟩] }

/-- A store in which player `A` never acts: the only action token of hand 1
belongs to player `B`. -/
def c1Store : Store :=
  { hands := [⟨1, "v", "w", "t", "1", "1", "2024"⟩]
  , players := [⟨1, "A", 1, 100, 0⟩, ⟨1, "B", 2, 100, 0⟩]
  , actions := [⟨1, "B cbr 10"⟩] }

/-- A record whose `starting_stacks` is SHORTER than `players`. -/
def c2ShortRec : RawHandRecord :=
  { variant := some "holdem", venue := some "V", table := some "T1",
    day := some "2", month := some "3", year := some "2024", hand := some "7",
    players := some ["P1", "P2"], starting_stacks := some [100],
    winnings := none, actions := some ["P1 f"] }

/-- A record whose `starting_stacks` is LONGER than `players`. -/
def c2LongRec : RawHandRecord :=
  { variant := some "holdem", venue := some "V", table := some "T1",
    day := some "2", month := some "3", year := some "2024", hand := some "9",
    players := some ["P1"], starting_stacks := some [100, 200],
    winnings := none, actions := some ["P1 f"] }

/-- A well-shaped two-player record. -/
def c2OkRec : RawHandRecord :=
  { variant := some "holdem", venue := some "V", table := some "T1",
    day := some "2", month := some "3", year := some "2024", hand := some "8",
    players := some ["P1", "P2"], starting_stacks := some [100, 200],
    winnings := none, actions := some ["P1 f", "P2 f"] }

/-- A record with two players and three action tokens. -/
def c3Record : RawHandRecord :=
  { variant := some "holdem", venue := some "V", table := some "T1",
    day := some "2", month := some "3", year := some "2024", hand := some "5",
    players := some ["P1", "P2"], starting_stacks := some [100, 100],
    winnings := some [0, 0], actions := some ["P1 cbr 10", "P2 f", "P1 f"] }

/-- A two-player record with no `winnings` field. -/
def c8Record : RawHandRecord :=
  { variant := some "holdem", venue := some "V", table := some "T1",
    day := some "2", month := some "3", year := some "2024", hand := some "4",
    players := some ["P1", "P2"], starting_stacks := some [100, 100],
    winnings := none, actions := some ["P1 f", "P2 f"] }

/-- A file whose text is a leading blank line, two consecutive delimiters, one
field line, a trailing delimiter and a whitespace line: only one record comes
out, and it is non-empty. -/
def c10Lines : List String := ["", "[1]", "[2]", "hand = 7", "[3]", "  "]

/-- The scenario input exactly as the specification gives it: delimiter, then
`hand`, `players`, `starting_stacks`, `winnings` and `actions` lines only. -/
def scenarioLines : List String :=
  [ "[1]"
  , "hand = 1"
  , "players = [" ++ qs ++ "P1" ++ qs ++ ", " ++ qs ++ "P2" ++ qs ++ "]"
  , "starting_stacks = [100.0, 100.0]"
  , "winnings = [50.0, -50.0]"
  , "actions = [" ++ qs ++ "P1 cbr 10" ++ qs ++ ", " ++ qs ++ "P2 f" ++ qs ++ "]" ]

/-- The scenario record extended with the six scalar fields the ingestion
loop requires. -/
def scenarioLinesFull : List String :=
  [ "[1]"
  , "variant = NT"
  , "venue = Home"
  , "table = T1"
  , "day = 2"
  , "month = 3"
  , "year = 2024"
  , "hand = 1"
  , "players = [" ++ qs ++ "P1" ++ qs ++ ", " ++ qs ++ "P2" ++ qs ++ "]"
  , "starting_stacks = [100.0, 100.0]"
  , "winnings = [50.0, -50.0]"
  , "actions = [" ++ qs ++ "P1 cbr 10" ++ qs ++ ", " ++ qs ++ "P2 f" ++ qs ++ "]" ]

/-- The store the extended scenario produces: one Hand row with identifier 1,
two PlayerSeat rows (`P1` seat 1 stack 100 winnings 50; `P2` seat 2 stack 100
winnings −50, quotes stripped from the identifiers), and two Action rows
whose stored tokens KEEP their surrounding single quotes, as the script never
strips quotes from action tokens. -/
def scenarioStore : Store :=
  { hands := [⟨1, "NT", "Home", "T1", "2", "3", "2024"⟩]
  , players := [⟨1, "P1", 1, 100, 50⟩, ⟨1, "P2", 2, 100, -50⟩]
  , actions := [⟨1, qs ++ "P1 cbr 10" ++ qs⟩, ⟨1, qs ++ "P2 f" ++ qs⟩] }

/-! ## Lemmas about the join and the grouped counts -/

theorem mem_joinRows {pid : String} {s : Store} {pa : PlayerRow × ActionRow} :
    pa ∈ joinRows pid s ↔
      pa.1 ∈ s.players ∧ pa.1.player_id = pid ∧ pa.2 ∈ s.actions ∧
        pa.2.hand_id = pa.1.hand_id := by
  obtain ⟨p, a⟩ := pa
  simp only [joinRows, List.mem_flatMap, List.mem_filter, List.mem_map, beq_iff_eq]
  constructor
  · rintro ⟨p2, ⟨hp2, hpid⟩, a2, ⟨ha2, hh⟩, heq⟩
    obtain ⟨rfl, rfl⟩ := Prod.mk.injEq .. |>.mp heq
    exact ⟨hp2, hpid, ha2, hh⟩
  · rintro ⟨hp, hpid, ha, hh⟩
    exact ⟨p, ⟨hp, hpid⟩, a, ⟨ha, hh⟩, rfl⟩

theorem joinRows_eq_nil_of_no_rows {pid : String} {s : Store}
    (h : ∀ p ∈ s.players, p.player_id ≠ pid) : joinRows pid s = [] := by
  unfold joinRows
  have : s.players.filter (fun p => p.player_id == pid) = [] := by
    apply List.filter_eq_nil_iff.mpr
    intro p hp
    simpa using h p hp
  rw [this]
  rfl

theorem totalHands_pos_imp_seated {pid : String} {s : Store}
    (h : 0 < totalHands pid s) : ∃ p ∈ s.players, p.player_id = pid := by
  by_contra hc
  push_neg at hc
  have hnil : joinRows pid s = [] := joinRows_eq_nil_of_no_rows hc
  simp [totalHands, distinctHands, hnil] at h

/-- C5: the metrics query includes a player exactly when the player's
distinct-hand count (as the query counts it) is strictly greater than 10;
11 hands are enough and 10 are not. -/
theorem qualification_boundary (pid : String) (s : Store) :
    (totalHands pid s = 11 → pid ∈ resultPlayers s) ∧
    (totalHands pid s = 10 → pid ∉ resultPlayers s) := by
  constructor
  · intro h11
    have hseat : ∃ p ∈ s.players, p.player_id = pid :=
      totalHands_pos_imp_seated (by omega)
    obtain ⟨p, hp, hpid⟩ := hseat
    simp only [resultPlayers, Finset.mem_filter, List.mem_toFinset, List.mem_map]
    exact ⟨⟨p, hp, hpid⟩, by omega⟩
  · intro h10 hmem
    simp only [resultPlayers, Finset.mem_filter] at hmem
    omega

/-- C5 witness: a player with exactly 11 distinct hands is in the query
result; one with exactly 10 is not. -/
theorem qualification_boundary_witness :
    totalHands "A" (mkStoreA 11) = 11 ∧ "A" ∈ resultPlayers (mkStoreA 11) ∧
    totalHands "A" (mkStoreA 10) = 10 ∧ "A" ∉ resultPlayers (mkStoreA 10) :=
  ⟨by decide, (qualification_boundary "A" (mkStoreA 11)).1 (by decide),
   by decide, (qualification_boundary "A" (mkStoreA 10)).2 (by decide)⟩

/-! ## Hands without action rows (C9) -/

theorem joinRows_removeHandSeats {pid : String} {s : Store} {h : Int}
    (hno : ∀ a ∈ s.actions, a.hand_id ≠ h) :
    joinRows pid (removeHandSeats h s) = joinRows pid s := by
  unfold joinRows removeHandSeats
  simp only
  induction s.players with
  | nil => rfl
  | cons p rest ih =>
    by_cases hph : p.hand_id = h
    · have hempty : s.actions.filter (fun a => a.hand_id == p.hand_id) = [] := by
        apply List.filter_eq_nil_iff.mpr
        intro a ha
        simp [hph, hno a ha]
      simp only [List.filter_cons]
      have : (p.hand_id != h) = false := by simp [hph]
      rw [this]
      by_cases hpid : p.player_id = pid
      · have : (p.player_id == pid) = true := by simp [hpid]
        simp only [List.filter_cons, this, if_true, List.flatMap_cons, hempty]
        simpa using ih
      · have : (p.player_id == pid) = false := by simp [hpid]
        simp only [List.filter_cons, this]
        simpa using ih
    · simp only [List.filter_cons]
      have : (p.hand_id != h) = true := by simp [hph]
      rw [this]
      simp only [if_true]
      by_cases hpid : p.player_id = pid
      · have hb : (p.player_id == pid) = true := by simp [hpid]
        simp only [List.filter_cons, hb, if_true, List.flatMap_cons]
        rw [ih]
      · have hb : (p.player_id == pid) = false := by simp [hpid]
        simp only [List.filter_cons, hb]
        simpa using ih

/-- C9: a hand with no `actions` rows contributes to no player's counts or
percentages — deleting its seat rows changes no column of the query. -/
theorem no_action_hand_contributes_nothing (pid : String) (s : Store) (h : Int)
    (hno : ∀ a ∈ s.actions, a.hand_id ≠ h) :
    totalHands pid (removeHandSeats h s) = totalHands pid s ∧
    vpipHands pid (removeHandSeats h s) = vpipHands pid s ∧
    showdownHands pid (removeHandSeats h s) = showdownHands pid s ∧
    aggressiveActions pid (removeHandSeats h s) = aggressiveActions pid s ∧
    passiveActions pid (removeHandSeats h s) = passiveActions pid s ∧
    vpipPercent pid (removeHandSeats h s) = vpipPercent pid s ∧
    showdownWinPercent pid (removeHandSeats h s) = showdownWinPercent pid s := by
  have hjr : joinRows pid (removeHandSeats h s) = joinRows pid s :=
    joinRows_removeHandSeats hno
  refine ⟨?_, ?_, ?_, ?_, ?_, ?_, ?_⟩ <;>
    simp [totalHands, vpipHands, showdownHands, aggressiveActions, passiveActions,
      vpipPercent, showdownWinPercent, hjr]

/-- C9 witness: hand 2 of `c9Store` is stored with a seat row but no action
row, and removing it changes none of player `A`'s query columns. -/
theorem no_action_hand_witness :
    (∀ a ∈ c9Store.actions, a.hand_id ≠ 2) ∧
    totalHands "A" (removeHandSeats 2 c9Store) = totalHands "A" c9Store ∧
    totalHands "A" c9Store = 1 :=
  ⟨by decide, (no_action_hand_contributes_nothing "A" c9Store 2 (by decide)).1, by decide⟩

/-! ## Percentage bounds (C7) -/

theorem toFinset_map_filter_subset {α β : Type} [DecidableEq β]
    (l : List α) (f : α → Bool) (g : α → β) :
    ((l.filter f).map g).toFinset ⊆ (l.map g).toFinset := by
  intro x hx
  simp only [List.mem_toFinset, List.mem_map] at hx ⊢
  obtain ⟨a, ha, rfl⟩ := hx
  exact ⟨a, (List.mem_filter.mp ha).1, rfl⟩

theorem vpipHands_le_totalHands (pid : String) (s : Store) :
    vpipHands pid s ≤ totalHands pid s :=
  Finset.card_le_card
    (toFinset_map_filter_subset (joinRows pid s) _ (fun pa => pa.1.hand_id))

theorem showdownHands_le_totalHands (pid : String) (s : Store) :
    showdownHands pid s ≤ totalHands pid s :=
  Finset.card_le_card
    (toFinset_map_filter_subset (joinRows pid s) _ (fun pa => pa.1.hand_id))

/-- C7: for a qualifying player with a non-zero classified-action count, the
derived columns are exactly the stated ratios and both lie in `[0, 100]`. -/
theorem percent_columns_bounded (pid : String) (s : Store)
    (hq : 10 < totalHands pid s) (ha : totalActions pid s ≠ 0) :
    vpipPercent pid s = (vpipHands pid s : ℚ) / (totalHands pid s : ℚ) * 100 ∧
    pfrPercent pid s =
      (passiveActions pid s : ℚ) /
        ((aggressiveActions pid s : ℚ) + (passiveActions pid s : ℚ)) * 100 ∧
    0 ≤ vpipPercent pid s ∧ vpipPercent pid s ≤ 100 ∧
    0 ≤ pfrPercent pid s ∧ pfrPercent pid s ≤ 100 := by
  have ht : (0 : ℚ) < (totalHands pid s : ℚ) := by
    have : 0 < totalHands pid s := by omega
    exact_mod_cast this
  have hta : (0 : ℚ) < (totalActions pid s : ℚ) := by
    exact_mod_cast Nat.pos_of_ne_zero ha
  refine ⟨rfl, ?_, ?_, ?_, ?_, ?_⟩
  · unfold pfrPercent totalActions
    push_cast
    ring_nf
  · unfold vpipPercent
    positivity
  · unfold vpipPercent
    have hle : (vpipHands pid s : ℚ) ≤ (totalHands pid s : ℚ) := by
      exact_mod_cast vpipHands_le_totalHands pid s
    have h1 : (vpipHands pid s : ℚ) / (totalHands pid s : ℚ) ≤ 1 :=
      (div_le_one ht).mpr hle
    calc (vpipHands pid s : ℚ) / (totalHands pid s : ℚ) * 100
        ≤ 1 * 100 := by nlinarith
      _ = 100 := by norm_num
  · unfold pfrPercent
    positivity
  · unfold pfrPercent
    have hle : (passiveActions pid s : ℚ) ≤ (totalActions pid s : ℚ) := by
      exact_mod_cast Nat.le_add_right (passiveActions pid s) (aggressiveActions pid s)
    have h1 : (passiveActions pid s : ℚ) / (totalActions pid s : ℚ) ≤ 1 :=
      (div_le_one hta).mpr hle
    calc (passiveActions pid s : ℚ) / (totalActions pid s : ℚ) * 100
        ≤ 1 * 100 := by nlinarith
      _ = 100 := by norm_num

/-- C7 witness: player `A` of `mkStoreA 11` qualifies, has 11 classified
actions, and the bounds hold for it. -/
theorem percent_columns_bounded_witness :
    10 < totalHands "A" (mkStoreA 11) ∧ totalActions "A" (mkStoreA 11) ≠ 0 ∧
    0 ≤ vpipPercent "A" (mkStoreA 11) ∧ vpipPercent "A" (mkStoreA 11) ≤ 100 ∧
    0 ≤ pfrPercent "A" (mkStoreA 11) ∧ pfrPercent "A" (mkStoreA 11) ≤ 100 := by
  have h := percent_columns_bounded "A" (mkStoreA 11) (by decide) (by decide)
  exact ⟨by decide, by decide, h.2.2.1, h.2.2.2.1, h.2.2.2.2.1, h.2.2.2.2.2⟩

/-! ## Attribution of action tokens (C1) -/

/-- C1 counterexample: the query credits player `A` with a VPIP hand and an
aggressive action although the only matching token of the hand belongs to
player `B`; the per-player readings of the same columns are 0. -/
theorem vpip_attribution_counterexample :
    vpipHands "A" c1Store = 1 ∧ vpipHandsSpec "A" c1Store = 0 ∧
    aggressiveActions "A" c1Store = 1 ∧ aggressiveActionsSpec "A" c1Store = 0 ∧
    tokenActor "B cbr 10" = "B" := by
  refine ⟨?_, ?_, ?_, ?_, ?_⟩ <;> decide

theorem length_filter_map {α β : Type} (l : List α) (f : α → β) (g : β → Bool) :
    ((l.map f).filter g).length = (l.filter (fun x => g (f x))).length := by
  induction l with
  | nil => rfl
  | cons x xs ih =>
    by_cases h : g (f x) <;> simp [List.filter_cons, h, ih]

theorem distinctHands_filter_action (pid : String) (s : Store) (g : String → Bool) :
    (((joinRows pid s).filter (fun pa => g pa.2.action)).map
        (fun pa => pa.1.hand_id)).toFinset =
      (seatHands pid s).filter
        (fun h => ∃ a ∈ s.actions, a.hand_id = h ∧ g a.action = true) := by
  ext h
  simp only [List.mem_toFinset, List.mem_map, List.mem_filter, Finset.mem_filter,
    seatHands, beq_iff_eq]
  constructor
  · rintro ⟨pa, ⟨hjr, hg⟩, hh⟩
    obtain ⟨hp, hpid, ha, hah⟩ := mem_joinRows.mp hjr
    exact ⟨⟨pa.1, ⟨hp, hpid⟩, hh⟩, pa.2, ha, by rw [hah, hh], hg⟩
  · rintro ⟨⟨p, ⟨hp, hpid⟩, hh⟩, a, ha, hah, hg⟩
    refine ⟨(p, a), ⟨mem_joinRows.mpr ⟨hp, hpid, ha, ?_⟩, hg⟩, hh⟩
    rw [hah, hh]

theorem distinctHands_filter_seat (pid : String) (s : Store) (g : PlayerRow → Bool) :
    (((joinRows pid s).filter (fun pa => g pa.1)).map
        (fun pa => pa.1.hand_id)).toFinset =
      (seatHands pid s).filter
        (fun h => (∃ p ∈ s.players, p.player_id = pid ∧ p.hand_id = h ∧ g p = true) ∧
          ∃ a ∈ s.actions, a.hand_id = h) := by
  ext h
  simp only [List.mem_toFinset, List.mem_map, List.mem_filter, Finset.mem_filter,
    seatHands, beq_iff_eq]
  constructor
  · rintro ⟨pa, ⟨hjr, hg⟩, hh⟩
    obtain ⟨hp, hpid, ha, hah⟩ := mem_joinRows.mp hjr
    exact ⟨⟨pa.1, ⟨hp, hpid⟩, hh⟩, ⟨pa.1, hp, hpid, hh, hg⟩, pa.2, ha, by rw [hah, hh]⟩
  · rintro ⟨-, ⟨p, hp, hpid, hh, hg⟩, a, ha, hah⟩
    refine ⟨(p, a), ⟨mem_joinRows.mpr ⟨hp, hpid, ha, ?_⟩, hg⟩, hh⟩
    rw [hah, hh]

theorem actions_count_eq_sum (pid : String) (s : Store) (g : String → Bool) :
    ((joinRows pid s).filter (fun pa => g pa.2.action)).length =
      ((s.players.filter (fun p => p.player_id == pid)).map
        (fun p => (s.actions.filter
          (fun a => a.hand_id == p.hand_id && g a.action)).length)).sum := by
  unfold joinRows
  induction s.players.filter (fun p => p.player_id == pid) with
  | nil => rfl
  | cons p rest ih =>
    simp only [List.flatMap_cons, List.filter_append, List.length_append, List.map_cons,
      List.sum_cons, ih]
    congr 1
    rw [length_filter_map, List.filter_filter]
    simp [Bool.and_comm]

/-- C1 amended: `vpip_hands` counts the player's distinct hands (among those
having action rows) that contain ANY matching action token, no matter which
seated player acted; `aggressive_actions` counts every matching action row of
every hand the player sat in; only the showdown numerator is attributed to
the player itself, through the player's own `winnings` column. -/
theorem query_attribution_characterisation (pid : String) (s : Store) :
    vpipHands pid s =
      ((seatHands pid s).filter
        (fun h => ∃ a ∈ s.actions, a.hand_id = h ∧ vpipMatch a.action = true)).card ∧
    aggressiveActions pid s =
      ((s.players.filter (fun p => p.player_id == pid)).map
        (fun p => (s.actions.filter
          (fun a => a.hand_id == p.hand_id && aggMatch a.action)).length)).sum ∧
    passiveActions pid s =
      ((s.players.filter (fun p => p.player_id == pid)).map
        (fun p => (s.actions.filter
          (fun a => a.hand_id == p.hand_id && passMatch a.action)).length)).sum ∧
    showdownHands pid s =
      ((seatHands pid s).filter
        (fun h => (∃ p ∈ s.players, p.player_id = pid ∧ p.hand_id = h ∧
            decide (0 < p.winnings) = true) ∧
          ∃ a ∈ s.actions, a.hand_id = h)).card := by
  refine ⟨?_, ?_, ?_, ?_⟩
  · unfold vpipHands distinctHands
    rw [distinctHands_filter_action]
  · exact actions_count_eq_sum pid s aggMatch
  · exact actions_count_eq_sum pid s passMatch
  · exact congrArg Finset.card
      (distinctHands_filter_seat pid s (fun p => decide (0 < p.winnings)))

/-! ## Behaviour of the seat-insertion loop -/

theorem insertHand_players (s : Store) (h : HandRow) : (insertHand s h).players = s.players := by
  unfold insertHand
  split <;> rfl

theorem insertHand_actions (s : Store) (h : HandRow) : (insertHand s h).actions = s.actions := by
  unfold insertHand
  split <;> rfl

theorem insertSeats_err (hid : Int) (st wl : List ℚ) :
    ∀ (ps : List String) (i : Nat) (s : Store),
      i ≤ st.length → st.length < i + ps.length →
      ∃ e, insertSeats hid (some st) wl i ps s = Except.error e := by
  intro ps
  induction ps with
  | nil =>
    intro i s hle hlt
    simp only [List.length_nil] at hlt
    omega
  | cons name rest ih =>
    intro i s hle hlt
    by_cases hi : i < st.length
    · have hst : st[i]? = some st[i] := List.getElem?_eq_getElem hi
      cases hwl : wl[i]? with
      | none =>
        exact ⟨"IndexError: list index out of range", by simp [insertSeats, hst, hwl]⟩
      | some w =>
        have hlt2 : st.length < (i + 1) + rest.length := by
          simp only [List.length_cons] at hlt
          omega
        obtain ⟨e, he⟩ := ih (i + 1)
          { s with players :=
              s.players ++ [⟨hid, stripQuotes name, i + 1, st[i], w⟩] }
          (by omega) hlt2
        exact ⟨e, by simp [insertSeats, hst, hwl, he]⟩
    · have hst : st[i]? = none := List.getElem?_eq_none (by omega)
      exact ⟨"IndexError: list index out of range", by simp [insertSeats, hst]⟩

theorem insertSeats_ok (hid : Int) (st wl : List ℚ) :
    ∀ (ps : List String) (i : Nat) (s : Store),
      i + ps.length ≤ st.length → i + ps.length ≤ wl.length →
      ∃ newRows : List PlayerRow,
        insertSeats hid (some st) wl i ps s =
          Except.ok { s with players := s.players ++ newRows } ∧
        newRows.length = ps.length := by
  intro ps
  induction ps with
  | nil =>
    intro i s h1 h2
    refine ⟨[], ?_, rfl⟩
    simp [insertSeats]
  | cons name rest ih =>
    intro i s h1 h2
    simp only [List.length_cons] at h1 h2
    have hi : i < st.length := by omega
    have hiw : i < wl.length := by omega
    have hst : st[i]? = some st[i] := List.getElem?_eq_getElem hi
    have hwl : wl[i]? = some wl[i] := List.getElem?_eq_getElem hiw
    obtain ⟨rows, hrec, hlen⟩ := ih (i + 1)
      { s with players := s.players ++ [⟨hid, stripQuotes name, i + 1, st[i], wl[i]⟩] }
      (by omega) (by omega)
    refine ⟨⟨hid, stripQuotes name, i + 1, st[i], wl[i]⟩ :: rows, ?_, by simp [hlen]⟩
    simp only [insertSeats, hst, hwl, hrec]
    congr 1
    simp

theorem insertSeats_ok_inv (hid : Int) (stks : Option (List ℚ)) (wl : List ℚ) :
    ∀ (ps : List String) (i : Nat) (s s2 : Store),
      insertSeats hid stks wl i ps s = Except.ok s2 →
      ∃ newRows : List PlayerRow,
        s2 = { s with players := s.players ++ newRows } ∧
        newRows.length = ps.length ∧
        ∀ row ∈ newRows, row.hand_id = hid ∧ ∃ j : Nat, wl[j]? = some row.winnings := by
  intro ps
  induction ps with
  | nil =>
    intro i s s2 h
    simp only [insertSeats, Except.ok.injEq] at h
    refine ⟨[], ?_, rfl, by simp⟩
    rw [← h]
    simp
  | cons name rest ih =>
    intro i s s2 h
    cases stks with
    | none => simp [insertSeats] at h
    | some st =>
      cases hst : st[i]? with
      | none => simp [insertSeats, hst] at h
      | some v =>
        cases hwl : wl[i]? with
        | none => simp [insertSeats, hst, hwl] at h
        | some w =>
          simp only [insertSeats, hst, hwl] at h
          obtain ⟨rows, hs2, hlen, hmem⟩ := ih (i + 1) _ _ h
          refine ⟨⟨hid, stripQuotes name, i + 1, v, w⟩ :: rows, ?_, by simp [hlen], ?_⟩
          · rw [hs2]
            congr 1
            simp
          · intro row hrow
            rcases List.mem_cons.mp hrow with hhead | htail
            · subst hhead
              exact ⟨rfl, i, hwl⟩
            · exact hmem row htail

theorem insertSeats_ok_stacksLen (hid : Int) (st wl : List ℚ) :
    ∀ (ps : List String) (i : Nat) (s s2 : Store),
      insertSeats hid (some st) wl i ps s = Except.ok s2 →
      ps = [] ∨ i + ps.length ≤ st.length := by
  intro ps
  induction ps with
  | nil => intro i s s2 _; exact Or.inl rfl
  | cons name rest ih =>
    intro i s s2 h
    right
    cases hst : st[i]? with
    | none => simp [insertSeats, hst] at h
    | some v =>
      cases hwl : wl[i]? with
      | none => simp [insertSeats, hst, hwl] at h
      | some w =>
        have hi : i < st.length := by
          by_contra hc
          have hnone : st[i]? = none := List.getElem?_eq_none (by omega)
          rw [hnone] at hst
          exact Option.noConfusion hst
        simp only [insertSeats, hst, hwl] at h
        rcases ih (i + 1) _ _ h with h0 | h0
        · subst h0
          simp only [List.length_cons, List.length_nil]
          omega
        · simp only [List.length_cons]
          omega

/-! ## Behaviour of one record's ingestion -/

theorem ingestRecord_ok_inv {s : Store} {r : RawHandRecord} {s2 : Store}
    (hok : ingestRecord s r = Except.ok s2) :
    ∃ (handStr : String) (hid : Int) (ps acts : List String) (newRows : List PlayerRow),
      r.hand = some handStr ∧ parsePyInt handStr = some hid ∧
      r.players = some ps ∧ r.actions = some acts ∧
      s2.players = s.players ++ newRows ∧
      newRows.length = ps.length ∧
      (∀ row ∈ newRows, row.hand_id = hid ∧
        ∃ j : Nat, (winningsListOf r ps)[j]? = some row.winnings) ∧
      s2.actions = s.actions ++ acts.map (fun a => (⟨hid, a⟩ : ActionRow)) ∧
      (∀ st, r.starting_stacks = some st → ps = [] ∨ ps.length ≤ st.length) := by
  unfold ingestRecord at hok
  cases hhand : r.hand with
  | none => simp only [hhand] at hok; exact Except.noConfusion hok
  | some handStr =>
  simp only [hhand] at hok
  cases hvar : r.variant with
  | none => simp only [hvar] at hok; exact Except.noConfusion hok
  | some variant =>
  simp only [hvar] at hok
  cases hven : r.venue with
  | none => simp only [hven] at hok; exact Except.noConfusion hok
  | some venue =>
  simp only [hven] at hok
  cases htab : r.table with
  | none => simp only [htab] at hok; exact Except.noConfusion hok
  | some tname =>
  simp only [htab] at hok
  cases hday : r.day with
  | none => simp only [hday] at hok; exact Except.noConfusion hok
  | some day =>
  simp only [hday] at hok
  cases hmon : r.month with
  | none => simp only [hmon] at hok; exact Except.noConfusion hok
  | some month =>
  simp only [hmon] at hok
  cases hyear : r.year with
  | none => simp only [hyear] at hok; exact Except.noConfusion hok
  | some year =>
  simp only [hyear] at hok
  cases hparse : parsePyInt handStr with
  | none => simp only [hparse] at hok; exact Except.noConfusion hok
  | some hid =>
  simp only [hparse] at hok
  cases hps : r.players with
  | none => simp only [hps] at hok; exact Except.noConfusion hok
  | some ps =>
  simp only [hps] at hok
  cases hins : insertSeats hid r.starting_stacks (winningsListOf r ps) 0 ps
      (insertHand s ⟨hid, variant, venue, tname, day, month, year⟩) with
  | error e => simp only [hins] at hok; exact Except.noConfusion hok
  | ok smid =>
  simp only [hins] at hok
  cases hacts : r.actions with
  | none => simp only [hacts] at hok; exact Except.noConfusion hok
  | some acts =>
  simp only [hacts] at hok
  obtain ⟨rows, hsmid, hlen, hmem⟩ := insertSeats_ok_inv hid r.starting_stacks
    (winningsListOf r ps) ps 0 _ _ hins
  have hs2 : s2 = { smid with actions := smid.actions ++ acts.map (fun a => (⟨hid, a⟩ : ActionRow)) } :=
    (Except.ok.injEq _ _).mp hok |>.symm
  refine ⟨handStr, hid, ps, acts, rows, rfl, hparse, rfl, rfl, ?_, hlen, hmem, ?_, ?_⟩
  · rw [hs2]
    show smid.players = s.players ++ rows
    rw [hsmid]
    show (insertHand s ⟨hid, variant, venue, tname, day, month, year⟩).players ++ rows =
      s.players ++ rows
    rw [insertHand_players]
  · rw [hs2]
    show smid.actions ++ _ = s.actions ++ _
    rw [hsmid]
    show (insertHand s ⟨hid, variant, venue, tname, day, month, year⟩).actions ++ _ =
      s.actions ++ _
    rw [insertHand_actions]
  · intro st hst
    rw [hst] at hins
    simpa using insertSeats_ok_stacksLen hid st (winningsListOf r ps) ps 0 _ _ hins

/-! ## Shape handling of `starting_stacks` (C2) -/

/-- C2 counterexample: a record whose `starting_stacks` length differs from
`players` (2 stacks for 1 player) raises nothing and inserts one PlayerSeat
row — no ShapeMismatchError exists in the code. -/
theorem shape_mismatch_counterexample :
    (∃ s2, ingestRecord emptyStore c2LongRec = Except.ok s2 ∧ s2.players.length = 1) ∧
    (c2LongRec.starting_stacks.map List.length ≠ c2LongRec.players.map List.length) := by
  constructor
  · refine ⟨_, rfl, ?_⟩
    decide
  · decide

/-- C2 amended: a record with `starting_stacks` shorter than `players` makes
ingestion raise an uncaught IndexError (any such record fails, whatever else
it holds), aborting the run: the remaining records of the list are never
processed.  A record with `starting_stacks` longer than (or equal to)
`players` raises no error and inserts `len(players)` PlayerSeat rows. -/
theorem shape_mismatch_behaviour :
    (∀ (s : Store) (r : RawHandRecord) (ps : List String) (st : List ℚ),
        r.players = some ps → r.starting_stacks = some st → st.length < ps.length →
        ∃ e, ingestRecord s r = Except.error e) ∧
    (∀ (s : Store) (r : RawHandRecord) (handStr : String) (hid : Int)
        (ps : List String) (st : List ℚ) (acts : List String),
        r.hand = some handStr → parsePyInt handStr = some hid →
        r.variant.isSome = true → r.venue.isSome = true → r.table.isSome = true →
        r.day.isSome = true → r.month.isSome = true → r.year.isSome = true →
        r.players = some ps → r.starting_stacks = some st → r.winnings = none →
        r.actions = some acts → ps.length ≤ st.length →
        ∃ s2, ingestRecord s r = Except.ok s2 ∧
          s2.players.length = s.players.length + ps.length) ∧
    (∀ (s : Store) (r : RawHandRecord) (e : String) (rest : List RawHandRecord),
        ingestRecord s r = Except.error e →
        ingestRecords s (r :: rest) = Except.error e) := by
  refine ⟨?_, ?_, ?_⟩
  · intro s r ps st hps hstk hlt
    cases hres : ingestRecord s r with
    | error e => exact ⟨e, rfl⟩
    | ok s2 =>
      exfalso
      obtain ⟨handStr, hid, ps2, acts, rows, hh, hp, hps2, hacts, hpl, hlen, hmem, hact, hstlen⟩ :=
        ingestRecord_ok_inv hres
      rw [hps] at hps2
      injection hps2 with e2
      subst e2
      rcases hstlen st hstk with h0 | h0
      · subst h0
        simp only [List.length_nil] at hlt
        omega
      · omega
  · intro s r handStr hid ps st acts hhand hparse hv1 hv2 hv3 hv4 hv5 hv6 hps hstk hwn hacts hle
    obtain ⟨variant, hvar⟩ := Option.isSome_iff_exists.mp hv1
    obtain ⟨venue, hven⟩ := Option.isSome_iff_exists.mp hv2
    obtain ⟨tname, htab⟩ := Option.isSome_iff_exists.mp hv3
    obtain ⟨day, hday⟩ := Option.isSome_iff_exists.mp hv4
    obtain ⟨month, hmon⟩ := Option.isSome_iff_exists.mp hv5
    obtain ⟨year, hyear⟩ := Option.isSome_iff_exists.mp hv6
    have hwl : winningsListOf r ps = List.replicate ps.length 0 := by
      unfold winningsListOf
      rw [hwn]
    obtain ⟨rows, hins, hlen⟩ := insertSeats_ok hid st (winningsListOf r ps) ps 0
      (insertHand s ⟨hid, variant, venue, tname, day, month, year⟩)
      (by omega) (by rw [hwl]; simp)
    unfold ingestRecord
    simp only [hhand, hvar, hven, htab, hday, hmon, hyear, hparse, hps, hstk, hins, hacts]
    refine ⟨_, rfl, ?_⟩
    simp [insertHand_players, hlen]
  · intro s r e rest h
    simp [ingestRecords, h]

/-- C2 amended witness: the short-stacks record errors and aborts the rest of
the list; the long-stacks record succeeds with both seat rows inserted. -/
theorem shape_mismatch_behaviour_witness :
    (∃ e, ingestRecord emptyStore c2ShortRec = Except.error e) ∧
    (∃ s2, ingestRecord emptyStore c2OkRec = Except.ok s2 ∧
        s2.players.length = emptyStore.players.length + 2) ∧
    ingestRecords emptyStore [c2ShortRec, c2OkRec] =
      Except.error "IndexError: list index out of range" := by
  refine ⟨?_, ?_, ?_⟩
  · exact shape_mismatch_behaviour.1 emptyStore c2ShortRec ["P1", "P2"] [100]
      rfl rfl (by decide)
  · exact shape_mismatch_behaviour.2.1 emptyStore c2OkRec "8" 8 ["P1", "P2"] [100, 200]
      ["P1 f", "P2 f"] rfl (by decide) rfl rfl rfl rfl rfl rfl rfl rfl rfl rfl (by decide)
  · exact shape_mismatch_behaviour.2.2 emptyStore c2ShortRec
      "IndexError: list index out of range" [c2OkRec] (by rfl)

/-! ## Row counts per hand (C3) -/

/-- C3 counterexample: after ingesting a record with 2 players and 3 action
tokens, hand 5 has 2 PlayerSeat rows and 3 Action rows — the PlayerSeat count
equals `len(players)` but not `len(actions)`. -/
theorem row_counts_counterexample :
    ∃ s2, ingestRecord emptyStore c3Record = Except.ok s2 ∧
      (s2.players.filter (fun p => p.hand_id == 5)).length = 2 ∧
      (s2.actions.filter (fun a => a.hand_id == 5)).length = 3 ∧
      (s2.players.filter (fun p => p.hand_id == 5)).length ≠
        (s2.actions.filter (fun a => a.hand_id == 5)).length := by
  refine ⟨_, rfl, ?_, ?_, ?_⟩ <;> decide

/-- C3 amended: for a record whose hand identifier is fresh in the store, the
stored PlayerSeat rows of that hand number `len(players)` and the stored
Action rows of that hand number `len(actions)`. -/
theorem row_counts_per_hand (s : Store) (r : RawHandRecord) (s2 : Store)
    (handStr : String) (hid : Int) (ps acts : List String)
    (hok : ingestRecord s r = Except.ok s2)
    (hhand : r.hand = some handStr) (hparse : parsePyInt handStr = some hid)
    (hps : r.players = some ps) (hacts : r.actions = some acts)
    (hfreshP : ∀ p ∈ s.players, p.hand_id ≠ hid)
    (hfreshA : ∀ a ∈ s.actions, a.hand_id ≠ hid) :
    (s2.players.filter (fun p => p.hand_id == hid)).length = ps.length ∧
    (s2.actions.filter (fun a => a.hand_id == hid)).length = acts.length := by
  obtain ⟨handStr2, hid2, ps2, acts2, rows, hh2, hp2, hps2, hacts2, hpl, hlen, hmem, hact, -⟩ :=
    ingestRecord_ok_inv hok
  rw [hhand] at hh2
  injection hh2 with e1
  subst e1
  rw [hparse] at hp2
  injection hp2 with e2
  subst e2
  rw [hps] at hps2
  injection hps2 with e3
  subst e3
  rw [hacts] at hacts2
  injection hacts2 with e4
  subst e4
  constructor
  · rw [hpl, List.filter_append]
    have h1 : s.players.filter (fun p => p.hand_id == hid) = [] :=
      List.filter_eq_nil_iff.mpr (fun p hp => by simp [hfreshP p hp])
    have h2 : rows.filter (fun p => p.hand_id == hid) = rows :=
      List.filter_eq_self.mpr (fun row hrow => by simp [(hmem row hrow).1])
    rw [h1, h2]
    simpa using hlen
  · rw [hact, List.filter_append]
    have h1 : s.actions.filter (fun a => a.hand_id == hid) = [] :=
      List.filter_eq_nil_iff.mpr (fun a ha => by simp [hfreshA a ha])
    have h2 : (acts.map (fun a => (⟨hid, a⟩ : ActionRow))).filter
        (fun a => a.hand_id == hid) = acts.map (fun a => (⟨hid, a⟩ : ActionRow)) := by
      apply List.filter_eq_self.mpr
      intro row hrow
      obtain ⟨x, hx, rfl⟩ := List.mem_map.mp hrow
      simp
    rw [h1, h2]
    simp

/-- C3 amended witness: the two counts for the concrete record `c3Record`. -/
theorem row_counts_per_hand_witness :
    ∃ s2, ingestRecord emptyStore c3Record = Except.ok s2 ∧
      (s2.players.filter (fun p => p.hand_id == 5)).length = 2 ∧
      (s2.actions.filter (fun a => a.hand_id == 5)).length = 3 := by
  refine ⟨_, rfl, ?_⟩
  exact row_counts_per_hand emptyStore c3Record _ "5" 5 ["P1", "P2"]
    ["P1 cbr 10", "P2 f", "P1 f"] rfl rfl (by decide) rfl rfl
    (by intro p hp; cases hp) (by intro a ha; cases ha)

/-! ## Synthesized winnings (C8) -/

/-- C8: a record with `players` present and `winnings` absent gets the
synthesized all-zero winnings list of length `len(players)`, and every
PlayerSeat row ingested for it stores winnings 0. -/
theorem absent_winnings_synthesized (s : Store) (r : RawHandRecord) (s2 : Store)
    (ps : List String) (hw : r.winnings = none) (hps : r.players = some ps)
    (hok : ingestRecord s r = Except.ok s2) :
    winningsListOf r ps = List.replicate ps.length 0 ∧
    ∃ newRows : List PlayerRow, s2.players = s.players ++ newRows ∧
      newRows.length = ps.length ∧ ∀ row ∈ newRows, row.winnings = 0 := by
  have hwl : winningsListOf r ps = List.replicate ps.length 0 := by
    unfold winningsListOf
    rw [hw]
  refine ⟨hwl, ?_⟩
  obtain ⟨handStr, hid, ps2, acts, rows, hh, hp, hps2, hacts, hpl, hlen, hmem, -, -⟩ :=
    ingestRecord_ok_inv hok
  rw [hps] at hps2
  injection hps2 with e
  subst e
  refine ⟨rows, hpl, hlen, ?_⟩
  intro row hrow
  obtain ⟨-, j, hj⟩ := hmem row hrow
  rw [hwl] at hj
  have hmemrep : row.winnings ∈ List.replicate ps.length (0 : ℚ) :=
    List.getElem?_mem hj
  exact List.eq_of_mem_replicate hmemrep

/-- C8 witness: the synthesized list for `c8Record` is `[0, 0]` and both
ingested seat rows store winnings 0. -/
theorem absent_winnings_synthesized_witness :
    winningsListOf c8Record ["P1", "P2"] = List.replicate 2 (0 : ℚ) ∧
    ∃ s2, ingestRecord emptyStore c8Record = Except.ok s2 ∧
      ∃ newRows : List PlayerRow, s2.players = emptyStore.players ++ newRows ∧
        newRows.length = 2 ∧ ∀ row ∈ newRows, row.winnings = 0 := by
  have h := absent_winnings_synthesized emptyStore c8Record
    (match ingestRecord emptyStore c8Record with
      | Except.ok s2 => s2
      | Except.error _ => emptyStore)
    ["P1", "P2"] rfl rfl (by rfl)
  exact ⟨h.1, _, by rfl, h.2⟩

/-! ## Full-refresh idempotence (C4) -/

/-- C4: because the three tables are cleared (and the clearing committed)
before loading, the store state a run leaves behind does not depend on the
state it started from; running the pipeline a second time over the same
files reproduces the first run's store exactly, and any deterministic
clustering function (KMeans with its fixed `random_state=42` seed) therefore
reproduces the same cluster assignments. -/
theorem pipeline_idempotent (s1 s2 : Store) (files : List (List String))
    (km : List (String × ℚ × ℚ × ℚ) → List Nat) :
    runPipeline s1 files = runPipeline s2 files ∧
    runPipeline (runPipeline s1 files) files = runPipeline s1 files ∧
    clusterAssignments km (runPipeline (runPipeline s1 files) files) =
      clusterAssignments km (runPipeline s1 files) := by
  have hclear : ∀ s : Store, clearStore s = emptyStore := by
    intro s
    rfl
  have hrun : ∀ s s' : Store, runPipeline s files = runPipeline s' files := by
    intro s s'
    unfold runPipeline
    rw [hclear s, hclear s']
  exact ⟨hrun s1 s2, hrun _ s1, congrArg (clusterAssignments km) (hrun _ s1)⟩

/-! ## The parser never emits an empty record (C10) -/

theorem flushRecord_no_empty {acc : List RawHandRecord} {cur : RawHandRecord}
    (hacc : ∀ r ∈ acc, r.isEmptyRec = false) :
    ∀ r ∈ flushRecord acc cur, r.isEmptyRec = false := by
  unfold flushRecord
  split
  · exact hacc
  · intro r hr
    rcases List.mem_append.mp hr with h | h
    · exact hacc r h
    · rcases List.mem_singleton.mp h with rfl
      next hne => exact Bool.not_eq_true _ ▸ Bool.of_not_eq_true hne

theorem parseLines_no_empty :
    ∀ (lines : List String) (acc : List RawHandRecord) (cur : RawHandRecord)
      (recs : List RawHandRecord),
      (∀ r ∈ acc, r.isEmptyRec = false) →
      parseLines lines acc cur = Except.ok recs →
      ∀ r ∈ recs, r.isEmptyRec = false := by
  intro lines
  induction lines with
  | nil =>
    intro acc cur recs hacc h
    simp only [parseLines, Except.ok.injEq] at h
    subst h
    exact flushRecord_no_empty hacc
  | cons line rest ih =>
    intro acc cur recs hacc h
    simp only [parseLines] at h
    split at h
    · exact ih acc cur recs hacc h
    · split at h
      · exact ih _ emptyRecord recs (flushRecord_no_empty hacc) h
      · split at h
        · exact Except.noConfusion h
        · split at h
          · exact Except.noConfusion h
          · exact ih acc _ recs hacc h

/-- C10: every record `parse_poker_file` emits has at least one recognised
field stored; blank lines and delimiter lines alone never yield a record. -/
theorem parser_no_empty_records (lines : List String) (recs : List RawHandRecord)
    (h : parsePokerFile lines = Except.ok recs) :
    ∀ r ∈ recs, r.isEmptyRec = false :=
  parseLines_no_empty lines [] emptyRecord recs (by intro r hr; cases hr) h

/-- C10 witness: parsing `c10Lines` yields exactly one record (despite four
delimiter/blank lines) and no emitted record is empty. -/
theorem parser_no_empty_records_witness :
    (∃ recs, parsePokerFile c10Lines = Except.ok recs ∧ recs.length = 1 ∧
      ∀ r ∈ recs, r.isEmptyRec = false) := by
  refine ⟨_, rfl, by decide, ?_⟩
  exact parser_no_empty_records c10Lines _ rfl

/-! ## The two-player scenario record (C6) -/

/-- C6 counterexample: ingesting the scenario record as given crashes with a
`KeyError` on the absent `variant` field (the `hands` insert reads every
scalar column unconditionally), so the run commits no rows at all. -/
theorem scenario_counterexample :
    processFile emptyStore scenarioLines = Except.error "KeyError: variant" ∧
    runPipeline emptyStore [scenarioLines] = emptyStore := by
  constructor <;> rfl

/-- C6 amended: the scenario record, extended with the scalar fields the
loop requires, stores exactly `scenarioStore`; the action tokens are stored
with their quotes, and the `cbr` token matches the voluntary and aggressive
buckets while the fold token matches the passive bucket. -/
theorem scenario_rows :
    processFile emptyStore scenarioLinesFull = Except.ok scenarioStore ∧
    vpipMatch (qs ++ "P1 cbr 10" ++ qs) = true ∧
    aggMatch (qs ++ "P1 cbr 10" ++ qs) = true ∧
    passMatch (qs ++ "P2 f" ++ qs) = true := by
  refine ⟨by rfl, by decide, by decide, by decide⟩
